import Mathlib

/-!
Verification of the zookeepers persistence decoder.

This file is a shallow embedding of the Rust sources:
  - `src/serde/de.rs`      — the Jute binary deserializer (primitives, strings,
    byte buffers, sequences, maps, enums with a discriminant registry);
  - `src/persistence/txnlog.rs` — the transaction-log iterator and segment
    discovery (`find_txnlog_paths`);
  - `src/proto/persistence/snapshot.rs` — the four-phase snapshot reader;
  - `src/proto/persistence/mod.rs` — `FileHeader`, magic constants and
    `zxid_from_path` (the twin of the `persistence` module helpers).

A byte stream is a list of bytes.  Every decoding function is a state
transformer threading the stream, returning `Except JErr` for the `Result`
of the Rust code.  The stream is threaded through errors as well, which
models the cursor position of the underlying `BufReader` (Rust's
`read_exact` consumes everything available before reporting end of file).
-/

/-- `Error` from `src/serde/error.rs`: `Message`, `TooLarge`, `NegativeValue`, `Eof`. -/
inductive JErr where
  | Message (msg : String)
  | TooLarge (size : Nat)
  | NegativeValue
  | Eof
deriving DecidableEq, Repr

/-- A byte on the wire. -/
abbrev Byte := Fin 256

/-- A forward-only byte stream, the model of the `Read` instance. -/
abbrev ByteStream := List Byte

/-- The deserializer monad: a mutable byte stream with `Result`-valued reads.
The stream position is returned also on errors. -/
def DeM (α : Type) : Type := ByteStream → Except JErr α × ByteStream

/-- Monadic bind for `DeM` (mirrors Rust's `?` operator). -/
def DeM.bind (m : DeM α) (f : α → DeM β) : DeM β := fun s =>
  match m s with
  | (Except.ok a, s1) => f a s1
  | (Except.error e, s1) => (Except.error e, s1)

/-- Monadic pure for `DeM`. -/
def DeM.pure (a : α) : DeM α := fun s => (Except.ok a, s)

instance : Monad DeM where
  pure := DeM.pure
  bind := DeM.bind

/-- Raise an error without consuming input (a `return Err(...)` in Rust). -/
def throwE (e : JErr) : DeM α := fun s => (Except.error e, s)

/-- Decidable equality of `Except` results, for evaluating the model on
concrete inputs. -/
instance {ε α : Type} [DecidableEq ε] [DecidableEq α] : DecidableEq (Except ε α) := fun x y =>
  match x, y with
  | Except.ok a, Except.ok b =>
    if h : a = b then isTrue (by rw [h]) else isFalse (by intro hc; cases hc; exact h rfl)
  | Except.error a, Except.error b =>
    if h : a = b then isTrue (by rw [h]) else isFalse (by intro hc; cases hc; exact h rfl)
  | Except.ok _, Except.error _ => isFalse (by intro hc; cases hc)
  | Except.error _, Except.ok _ => isFalse (by intro hc; cases hc)

/-- `read_exact` on the stream: take `n` bytes, or fail with `Eof` after
consuming whatever was available. -/
def readBytes (n : Nat) : DeM (List Byte) := fun s =>
  if n ≤ s.length then (Except.ok (s.take n), s.drop n)
  else (Except.error JErr.Eof, [])

/-- Big-endian value of a byte list. -/
def beVal (l : List Byte) : Nat := l.foldl (fun a b => a * 256 + b.val) 0

/-- Two's-complement reading of a `w`-bit unsigned value as signed. -/
def toSigned (w : Nat) (v : Nat) : Int :=
  if v < 2 ^ (w - 1) then (v : Int) else (v : Int) - 2 ^ w

/-- `read_u8`. -/
def read_u8 : DeM Nat := do
  let bs ← readBytes 1
  pure (beVal bs)

/-- `read_i8`. -/
def read_i8 : DeM Int := do
  let bs ← readBytes 1
  pure (toSigned 8 (beVal bs))

/-- `read_u32::<BigEndian>`. -/
def read_u32 : DeM Nat := do
  let bs ← readBytes 4
  pure (beVal bs)

/-- `read_i32::<BigEndian>`. -/
def read_i32 : DeM Int := do
  let bs ← readBytes 4
  pure (toSigned 32 (beVal bs))

/-- `read_u64::<BigEndian>`. -/
def read_u64 : DeM Nat := do
  let bs ← readBytes 8
  pure (beVal bs)

/-- `read_i64::<BigEndian>`. -/
def read_i64 : DeM Int := do
  let bs ← readBytes 8
  pure (toSigned 64 (beVal bs))

/-- `MAX_LENGTH` from `src/serde/mod.rs`: 1 MiB. -/
def MAX_LENGTH : Nat := 1024 * 1024

/-- `i32 as usize` on a 64-bit platform: two's-complement wrap to 64 bits. -/
def i32_as_usize (i : Int) : Nat := (i % (2 : Int) ^ 64).toNat

/-- Is `b` a UTF-8 continuation byte (`0x80..=0xBF`)? -/
def utf8Cont (b : Byte) : Bool := 0x80 ≤ b.val && b.val ≤ 0xBF

/-- UTF-8 validity of a byte list, the check done by `std::str::from_utf8`. -/
def validUtf8 : List Byte → Bool
  | [] => true
  | b :: rest =>
    if b.val ≤ 0x7F then validUtf8 rest
    else if 0xC2 ≤ b.val && b.val ≤ 0xDF then
      match rest with
      | c :: rest2 => utf8Cont c && validUtf8 rest2
      | [] => false
    else if b.val == 0xE0 then
      match rest with
      | c :: d :: rest2 => (0xA0 ≤ c.val && c.val ≤ 0xBF) && utf8Cont d && validUtf8 rest2
      | _ => false
    else if (0xE1 ≤ b.val && b.val ≤ 0xEC) || b.val == 0xEE || b.val == 0xEF then
      match rest with
      | c :: d :: rest2 => utf8Cont c && utf8Cont d && validUtf8 rest2
      | _ => false
    else if b.val == 0xED then
      match rest with
      | c :: d :: rest2 => (0x80 ≤ c.val && c.val ≤ 0x9F) && utf8Cont d && validUtf8 rest2
      | _ => false
    else if b.val == 0xF0 then
      match rest with
      | c :: d :: e :: rest2 =>
        (0x90 ≤ c.val && c.val ≤ 0xBF) && utf8Cont d && utf8Cont e && validUtf8 rest2
      | _ => false
    else if 0xF1 ≤ b.val && b.val ≤ 0xF3 then
      match rest with
      | c :: d :: e :: rest2 => utf8Cont c && utf8Cont d && utf8Cont e && validUtf8 rest2
      | _ => false
    else if b.val == 0xF4 then
      match rest with
      | c :: d :: e :: rest2 =>
        (0x80 ≤ c.val && c.val ≤ 0x8F) && utf8Cont d && utf8Cont e && validUtf8 rest2
      | _ => false
    else false

/-- `Deserializer::deserialize_str`: a 4-byte length read as **unsigned**,
rejected above `MAX_LENGTH`, then that many bytes validated as UTF-8.
The decoded text is kept as its byte list. -/
def deserialize_str : DeM (List Byte) := do
  let len ← read_u32
  if MAX_LENGTH < len then throwE (JErr.TooLarge len)
  else do
    let buf ← readBytes len
    if validUtf8 buf then pure buf else throwE (JErr.Message "invalid utf-8")

/-- `Deserializer::deserialize_string`: same byte-level behaviour as
`deserialize_str` (the Rust source duplicates the body). -/
def deserialize_string : DeM (List Byte) := do
  let len ← read_u32
  if MAX_LENGTH < len then throwE (JErr.TooLarge len)
  else do
    let buf ← readBytes len
    if validUtf8 buf then pure buf else throwE (JErr.Message "invalid utf-8")

/-- `Deserializer::deserialize_byte_buf`: a 4-byte unsigned length then raw
bytes, with **no** maximum-length check. -/
def deserialize_byte_buf : DeM (List Byte) := do
  let len ← read_u32
  readBytes len

/-- `Deserializer::deserialize_bool`: one byte, zero is `false`. -/
def deserialize_bool : DeM Bool := do
  let v ← read_u8
  pure (v ≠ 0)

/-- The element count used by `deserialize_seq` / `deserialize_map`:
a negative wire count is treated as zero (`if read_size < 0 { 0 }`);
`to_usize()` cannot fail for a non-negative `i32` on a 64-bit platform. -/
def seqSize (read_size : Int) : Nat := if read_size < 0 then 0 else read_size.toNat

/-- Decode `n` elements in order (the `JuteAccess` sequence driver:
`next_element_seed` decrements `size` and decodes until it reaches zero). -/
def readElems (dec : DeM α) : Nat → DeM (List α)
  | 0 => pure []
  | n + 1 => do
    let x ← dec
    let xs ← readElems dec n
    pure (x :: xs)

/-- `Deserializer::deserialize_seq`: 4-byte signed count (negative means
empty), then that many elements. -/
def deserialize_seq (dec : DeM α) : DeM (List α) := do
  let read_size ← read_i32
  readElems dec (seqSize read_size)

/-- Decode `n` key-value pairs in order (the `JuteAccess` map driver). -/
def readPairs (decK : DeM κ) (decV : DeM ν) : Nat → DeM (List (κ × ν))
  | 0 => pure []
  | n + 1 => do
    let k ← decK
    let v ← decV
    let kvs ← readPairs decK decV n
    pure ((k, v) :: kvs)

/-- `Deserializer::deserialize_map`: 4-byte signed count (negative means
empty), then that many key-value pairs. -/
def deserialize_map (decK : DeM κ) (decV : DeM ν) : DeM (List (κ × ν)) := do
  let read_size ← read_i32
  readPairs decK decV (seqSize read_size)

/-- `EnumEncoding` from `src/serde/mod.rs` (`Type` is spelt `TypeOnly`). -/
inductive EnumEncoding where
  | TypeThenLength
  | LengthThenType
  | TypeOnly
deriving DecidableEq, Repr

/-- One entry of `Deserializer.enum_mappings`: discriminant table and layout. -/
structure EnumMapping where
  codes_to_names : List (Int × String)
  order : EnumEncoding
deriving DecidableEq, Repr

/-- An enum registry (`enum_mappings`), keyed by the struct-enum type name. -/
abbrev EnumRegistry := List (String × EnumMapping)

/-- `HashMap::get` on the registry. -/
def lookupType (reg : EnumRegistry) (ty : String) : Option EnumMapping :=
  (reg.find? (fun e => e.1 = ty)).map Prod.snd

/-- `HashMap::get` on a discriminant table. -/
def lookupCode (tbl : List (Int × String)) (d : Int) : Option String :=
  (tbl.find? (fun e => e.1 = d)).map Prod.snd

/-- The discriminant read of `JuteEnumAccess::variant_seed`: a 4-byte
big-endian signed integer, with the extra length field consumed and
discarded for the `LengthThenType` and `TypeThenLength` layouts. -/
def readDiscriminant (order : EnumEncoding) : DeM Int :=
  match order with
  | EnumEncoding.TypeOnly => read_i32
  | EnumEncoding.LengthThenType => do
    let _ ← read_i32
    read_i32
  | EnumEncoding.TypeThenLength => do
    let typ ← read_i32
    let _ ← read_i32
    pure typ

/-- `JuteEnumAccess::variant_seed`: look up the registry entry for the enum
type (error if absent), read the discriminant per the registered layout and
resolve it to a variant name (error if unknown). -/
def variant_seed (reg : EnumRegistry) (enum_type : String) : DeM String := fun s =>
  match lookupType reg enum_type with
  | none => (Except.error (JErr.Message ("Cannot find mapping for type " ++ enum_type)), s)
  | some m =>
    (do
      let d ← readDiscriminant m.order
      match lookupCode m.codes_to_names d with
      | none => throwE (JErr.Message ("Wrong discriminant for " ++ enum_type ++ ": " ++ toString d))
      | some name => pure name) s

/-- The `FooBar` enum of the deserializer's own test suite
(`src/serde/de.rs`, `mod test`): `Foo(i32)` and `Bar(String)`. -/
inductive FooBar where
  | Foo (x : Int)
  | Bar (msg : List Byte)
deriving DecidableEq, Repr

/-- Serde-derived decoding of `FooBar`: resolve the variant name through
`variant_seed`, then decode the newtype payload. -/
def deserialize_FooBar (reg : EnumRegistry) : DeM FooBar := do
  let name ← variant_seed reg "FooBar"
  if name = "Foo" then do
    let x ← read_i32
    pure (FooBar.Foo x)
  else if name = "Bar" then do
    let msg ← deserialize_string
    pure (FooBar.Bar msg)
  else throwE (JErr.Message ("unknown variant " ++ name))

/-- The registry built by `add_enum_mapping::<FooBarCode, FooBar>(Type)`:
discriminant 3 is `Foo`, 4 is `Bar`, layout type-only. -/
def fooBarRegistry : EnumRegistry :=
  [("FooBar", ⟨[(3, "Foo"), (4, "Bar")], EnumEncoding.TypeOnly⟩)]

/-- `OpCode::codes_to_names()` (`src/proto/proto.rs`, derived via strum). -/
def OpCode_codes_to_names : List (Int × String) :=
  [(0, "Notification"), (1, "Create"), (2, "Delete"), (3, "Exists"), (4, "GetData"),
   (5, "SetData"), (6, "GetACL"), (7, "SetACL"), (8, "GetChildren"), (9, "Sync"),
   (11, "Ping"), (12, "GetChildren2"), (13, "Check"), (14, "Multi"), (15, "Create2"),
   (16, "Reconfig"), (17, "CheckWatches"), (18, "RemoveWatches"), (19, "CreateContainer"),
   (20, "DeleteContainer"), (21, "CreateTTL"), (100, "Auth"), (101, "SetWatches"),
   (102, "Sasl"), (-10, "CreateSession"), (-11, "CloseSession"), (-1, "Error")]

/-- `ErrorCode::codes_to_names()` (`src/proto/proto.rs`). -/
def ErrorCode_codes_to_names : List (Int × String) :=
  [(0, "Ok"), (-1, "SystemError"), (-2, "RuntimeInconsistency"), (-3, "DataInconsistency"),
   (-4, "ConnectionLoss"), (-5, "MarshallingError"), (-6, "Unimplemented"),
   (-7, "OperationTimeout"), (-8, "BadArguments"), (-13, "NewConfigNoQuorum"),
   (-14, "ReconfigInProgress"), (-12, "UnknownSession"), (-100, "APIError"),
   (-101, "NoNode"), (-102, "NoAuth"), (-103, "BadVersion"), (-108, "NoChildrenForEphemerals"),
   (-110, "NodeExists"), (-111, "NotEmpty"), (-112, "SessionExpired"), (-113, "InvalidCallback"),
   (-114, "InvalidACL"), (-115, "AuthFailed"), (-118, "SessionMoved"), (-119, "NotReadOnly"),
   (-120, "EphemeralOnLocalSession"), (-121, "NoWatcher"), (-123, "ReconfigDisabled")]

/-- `ErrorCode` (`src/proto/proto.rs`), a field-less enum. -/
inductive ErrorCode where
  | Ok | SystemError | RuntimeInconsistency | DataInconsistency | ConnectionLoss
  | MarshallingError | Unimplemented | OperationTimeout | BadArguments
  | NewConfigNoQuorum | ReconfigInProgress | UnknownSession | APIError
  | NoNode | NoAuth | BadVersion | NoChildrenForEphemerals | NodeExists
  | NotEmpty | SessionExpired | InvalidCallback | InvalidACL | AuthFailed
  | SessionMoved | NotReadOnly | EphemeralOnLocalSession | NoWatcher | ReconfigDisabled
deriving DecidableEq, Repr

/-- Variant name of `ErrorCode` to its constructor (the serde-derived
variant dispatch for a unit-variant enum). -/
def errorCodeOfName (name : String) : Option ErrorCode :=
  if name = "Ok" then some ErrorCode.Ok
  else if name = "SystemError" then some ErrorCode.SystemError
  else if name = "RuntimeInconsistency" then some ErrorCode.RuntimeInconsistency
  else if name = "DataInconsistency" then some ErrorCode.DataInconsistency
  else if name = "ConnectionLoss" then some ErrorCode.ConnectionLoss
  else if name = "MarshallingError" then some ErrorCode.MarshallingError
  else if name = "Unimplemented" then some ErrorCode.Unimplemented
  else if name = "OperationTimeout" then some ErrorCode.OperationTimeout
  else if name = "BadArguments" then some ErrorCode.BadArguments
  else if name = "NewConfigNoQuorum" then some ErrorCode.NewConfigNoQuorum
  else if name = "ReconfigInProgress" then some ErrorCode.ReconfigInProgress
  else if name = "UnknownSession" then some ErrorCode.UnknownSession
  else if name = "APIError" then some ErrorCode.APIError
  else if name = "NoNode" then some ErrorCode.NoNode
  else if name = "NoAuth" then some ErrorCode.NoAuth
  else if name = "BadVersion" then some ErrorCode.BadVersion
  else if name = "NoChildrenForEphemerals" then some ErrorCode.NoChildrenForEphemerals
  else if name = "NodeExists" then some ErrorCode.NodeExists
  else if name = "NotEmpty" then some ErrorCode.NotEmpty
  else if name = "SessionExpired" then some ErrorCode.SessionExpired
  else if name = "InvalidCallback" then some ErrorCode.InvalidCallback
  else if name = "InvalidACL" then some ErrorCode.InvalidACL
  else if name = "AuthFailed" then some ErrorCode.AuthFailed
  else if name = "SessionMoved" then some ErrorCode.SessionMoved
  else if name = "NotReadOnly" then some ErrorCode.NotReadOnly
  else if name = "EphemeralOnLocalSession" then some ErrorCode.EphemeralOnLocalSession
  else if name = "NoWatcher" then some ErrorCode.NoWatcher
  else if name = "ReconfigDisabled" then some ErrorCode.ReconfigDisabled
  else none

/-- Decoding of the field-less `ErrorCode` enum (registered via `add_enum`). -/
def deserialize_ErrorCode (reg : EnumRegistry) : DeM ErrorCode := do
  let name ← variant_seed reg "ErrorCode"
  match errorCodeOfName name with
  | some e => pure e
  | none => throwE (JErr.Message ("unknown variant " ++ name))

/-- `Id` (`src/lib.rs`): an ACL identity, two strings.  (Named `AclId` here
because `Id` is taken by the Lean prelude.) -/
structure AclId where
  scheme : List Byte
  id : List Byte
deriving DecidableEq, Repr

/-- `ACL` (`src/lib.rs`): permission bits (`Perms(u32)`) and identity. -/
structure ACL where
  perms : Nat
  id : AclId
deriving DecidableEq, Repr

/-- `TxnHeader` (`src/persistence/txnlog.rs`): `client_id: SessionId(i64)`,
`cxid: Xid(i32)`, `zxid: Zxid(i64)`, `time: Timestamp(u64)`. -/
structure TxnHeader where
  client_id : Int
  cxid : Int
  zxid : Int
  time : Nat
deriving DecidableEq, Repr

/-- `CreateTxn`: note that `data` has no `serde_bytes` attribute, so it is
decoded as a sequence of `u8`, not as a byte buffer. -/
structure CreateTxn where
  path : List Byte
  data : List Nat
  acl : List ACL
  ephemeral : Bool
  parent_c_version : Int
deriving DecidableEq, Repr

/-- `CreateContainerTxn` (`data` is a `serde_bytes` byte buffer). -/
structure CreateContainerTxn where
  path : List Byte
  data : List Byte
  acl : List ACL
  parent_c_version : Int
deriving DecidableEq, Repr

/-- `CreateTTLTxn`. -/
structure CreateTTLTxn where
  path : List Byte
  data : List Byte
  acl : List ACL
  parent_c_version : Int
  ttl : Int
deriving DecidableEq, Repr

/-- `DeleteTxn`. -/
structure DeleteTxn where
  path : List Byte
deriving DecidableEq, Repr

/-- `SetDataTxn`. -/
structure SetDataTxn where
  path : List Byte
  data : List Byte
  version : Int
deriving DecidableEq, Repr

/-- `CheckVersionTxn`. -/
structure CheckVersionTxn where
  path : List Byte
  version : Int
deriving DecidableEq, Repr

/-- `SetACLTxn`. -/
structure SetACLTxn where
  path : List Byte
  acl : List ACL
  version : Int
deriving DecidableEq, Repr

/-- `CreateSessionTxn`: `time_out: Duration(i32)`. -/
structure CreateSessionTxn where
  time_out : Int
deriving DecidableEq, Repr

/-- `ErrorTxn`. -/
structure ErrorTxn where
  err : ErrorCode
deriving DecidableEq, Repr

/-- `MultiTxnOperation` (`src/persistence/txnlog.rs`). -/
inductive MultiTxnOperation where
  | Create (t : CreateTxn)
  | Create2 (t : CreateTxn)
  | CreateTTL (t : CreateTTLTxn)
  | CreateContainer (t : CreateContainerTxn)
  | Delete (t : DeleteTxn)
  | DeleteContainer (t : DeleteTxn)
  | SetData (t : SetDataTxn)
  | Error (t : ErrorTxn)
  | Check (t : CheckVersionTxn)
deriving DecidableEq, Repr

/-- `TxnOperation` (`src/persistence/txnlog.rs`). -/
inductive TxnOperation where
  | CreateSession (t : CreateSessionTxn)
  | CloseSession
  | Create (t : CreateTxn)
  | Create2 (t : CreateTxn)
  | CreateTTL (t : CreateTTLTxn)
  | CreateContainer (t : CreateContainerTxn)
  | Delete (t : DeleteTxn)
  | DeleteContainer (t : DeleteTxn)
  | Reconfig (t : SetDataTxn)
  | SetData (t : SetDataTxn)
  | SetACL (t : SetACLTxn)
  | Error (t : ErrorTxn)
  | Multi (txns : List MultiTxnOperation)
deriving DecidableEq, Repr

/-- `Txn`: header plus operation. -/
structure Txn where
  header : TxnHeader
  op : TxnOperation
deriving DecidableEq, Repr

/-- Serde decoding of `TxnHeader` (a struct is a tuple of its fields). -/
def deserialize_TxnHeader : DeM TxnHeader := do
  let client_id ← read_i64
  let cxid ← read_i32
  let zxid ← read_i64
  let time ← read_u64
  pure ⟨client_id, cxid, zxid, time⟩

/-- Serde decoding of `Id`. -/
def deserialize_Id : DeM AclId := do
  let scheme ← deserialize_string
  let i ← deserialize_string
  pure ⟨scheme, i⟩

/-- Serde decoding of `ACL` (`Perms(u32)` then `Id`). -/
def deserialize_ACL : DeM ACL := do
  let perms ← read_u32
  let i ← deserialize_Id
  pure ⟨perms, i⟩

/-- Serde decoding of `CreateTxn` (`data` is a plain `Vec<u8>`: a counted
sequence of `u8` elements). -/
def deserialize_CreateTxn : DeM CreateTxn := do
  let path ← deserialize_string
  let data ← deserialize_seq read_u8
  let acl ← deserialize_seq deserialize_ACL
  let ephemeral ← deserialize_bool
  let parent_c_version ← read_i32
  pure ⟨path, data, acl, ephemeral, parent_c_version⟩

/-- Serde decoding of `CreateContainerTxn`. -/
def deserialize_CreateContainerTxn : DeM CreateContainerTxn := do
  let path ← deserialize_string
  let data ← deserialize_byte_buf
  let acl ← deserialize_seq deserialize_ACL
  let parent_c_version ← read_i32
  pure ⟨path, data, acl, parent_c_version⟩

/-- Serde decoding of `CreateTTLTxn`. -/
def deserialize_CreateTTLTxn : DeM CreateTTLTxn := do
  let path ← deserialize_string
  let data ← deserialize_byte_buf
  let acl ← deserialize_seq deserialize_ACL
  let parent_c_version ← read_i32
  let ttl ← read_i64
  pure ⟨path, data, acl, parent_c_version, ttl⟩

/-- Serde decoding of `DeleteTxn`. -/
def deserialize_DeleteTxn : DeM DeleteTxn := do
  let path ← deserialize_string
  pure ⟨path⟩

/-- Serde decoding of `SetDataTxn`. -/
def deserialize_SetDataTxn : DeM SetDataTxn := do
  let path ← deserialize_string
  let data ← deserialize_byte_buf
  let version ← read_i32
  pure ⟨path, data, version⟩

/-- Serde decoding of `CheckVersionTxn`. -/
def deserialize_CheckVersionTxn : DeM CheckVersionTxn := do
  let path ← deserialize_string
  let version ← read_i32
  pure ⟨path, version⟩

/-- Serde decoding of `SetACLTxn`. -/
def deserialize_SetACLTxn : DeM SetACLTxn := do
  let path ← deserialize_string
  let acl ← deserialize_seq deserialize_ACL
  let version ← read_i32
  pure ⟨path, acl, version⟩

/-- Serde decoding of `CreateSessionTxn`. -/
def deserialize_CreateSessionTxn : DeM CreateSessionTxn := do
  let time_out ← read_i32
  pure ⟨time_out⟩

/-- Serde decoding of `ErrorTxn`. -/
def deserialize_ErrorTxn (reg : EnumRegistry) : DeM ErrorTxn := do
  let e ← deserialize_ErrorCode reg
  pure ⟨e⟩

/-- Serde decoding of `MultiTxnOperation`: variant name via `variant_seed`
(under the registered layout), then the newtype payload. -/
def deserialize_MultiTxnOperation (reg : EnumRegistry) : DeM MultiTxnOperation := do
  let name ← variant_seed reg "MultiTxnOperation"
  if name = "Create" then do
    let t ← deserialize_CreateTxn
    pure (MultiTxnOperation.Create t)
  else if name = "Create2" then do
    let t ← deserialize_CreateTxn
    pure (MultiTxnOperation.Create2 t)
  else if name = "CreateTTL" then do
    let t ← deserialize_CreateTTLTxn
    pure (MultiTxnOperation.CreateTTL t)
  else if name = "CreateContainer" then do
    let t ← deserialize_CreateContainerTxn
    pure (MultiTxnOperation.CreateContainer t)
  else if name = "Delete" then do
    let t ← deserialize_DeleteTxn
    pure (MultiTxnOperation.Delete t)
  else if name = "DeleteContainer" then do
    let t ← deserialize_DeleteTxn
    pure (MultiTxnOperation.DeleteContainer t)
  else if name = "SetData" then do
    let t ← deserialize_SetDataTxn
    pure (MultiTxnOperation.SetData t)
  else if name = "Error" then do
    let t ← deserialize_ErrorTxn reg
    pure (MultiTxnOperation.Error t)
  else if name = "Check" then do
    let t ← deserialize_CheckVersionTxn
    pure (MultiTxnOperation.Check t)
  else throwE (JErr.Message ("unknown variant " ++ name))

/-- Serde decoding of `TxnOperation`. -/
def deserialize_TxnOperation (reg : EnumRegistry) : DeM TxnOperation := do
  let name ← variant_seed reg "TxnOperation"
  if name = "CreateSession" then do
    let t ← deserialize_CreateSessionTxn
    pure (TxnOperation.CreateSession t)
  else if name = "CloseSession" then pure TxnOperation.CloseSession
  else if name = "Create" then do
    let t ← deserialize_CreateTxn
    pure (TxnOperation.Create t)
  else if name = "Create2" then do
    let t ← deserialize_CreateTxn
    pure (TxnOperation.Create2 t)
  else if name = "CreateTTL" then do
    let t ← deserialize_CreateTTLTxn
    pure (TxnOperation.CreateTTL t)
  else if name = "CreateContainer" then do
    let t ← deserialize_CreateContainerTxn
    pure (TxnOperation.CreateContainer t)
  else if name = "Delete" then do
    let t ← deserialize_DeleteTxn
    pure (TxnOperation.Delete t)
  else if name = "DeleteContainer" then do
    let t ← deserialize_DeleteTxn
    pure (TxnOperation.DeleteContainer t)
  else if name = "Reconfig" then do
    let t ← deserialize_SetDataTxn
    pure (TxnOperation.Reconfig t)
  else if name = "SetData" then do
    let t ← deserialize_SetDataTxn
    pure (TxnOperation.SetData t)
  else if name = "SetACL" then do
    let t ← deserialize_SetACLTxn
    pure (TxnOperation.SetACL t)
  else if name = "Error" then do
    let t ← deserialize_ErrorTxn reg
    pure (TxnOperation.Error t)
  else if name = "Multi" then do
    let txns ← deserialize_seq (deserialize_MultiTxnOperation reg)
    pure (TxnOperation.Multi txns)
  else throwE (JErr.Message ("unknown variant " ++ name))

/-- Serde decoding of `Txn`. -/
def deserialize_Txn (reg : EnumRegistry) : DeM Txn := do
  let header ← deserialize_TxnHeader
  let op ← deserialize_TxnOperation reg
  pure ⟨header, op⟩

/-- The registry configured by `TxnlogFile::new`: `TxnOperation` with the
type-only layout, `MultiTxnOperation` with type-then-length, and the
field-less `ErrorCode`. -/
def txnlogRegistry : EnumRegistry :=
  [("TxnOperation", ⟨OpCode_codes_to_names, EnumEncoding.TypeOnly⟩),
   ("MultiTxnOperation", ⟨OpCode_codes_to_names, EnumEncoding.TypeThenLength⟩),
   ("ErrorCode", ⟨ErrorCode_codes_to_names, EnumEncoding.TypeOnly⟩)]

/-- The mutable state of an open `TxnlogFile`: stream position and the
`done` flag. -/
structure TxnlogFile where
  stream : ByteStream
  done : Bool
deriving DecidableEq, Repr

/-- The inner `read_next` of `TxnlogFile::next`: 8-byte checksum (unused),
4-byte record length (zero means clean end of log), the `Txn` value, then
a guard byte that must be `0x42`. -/
def read_next : DeM (Option Txn) := do
  let _crc ← read_u64
  let length ← read_u32
  if length = 0 then pure none
  else do
    let txn ← deserialize_Txn txnlogRegistry
    let b ← read_u8
    if b ≠ 0x42 then throwE (JErr.Message "Last transaction was partial.")
    else pure (some txn)

/-- `Iterator::next` for `TxnlogFile`: short-circuit when `done`; otherwise
run `read_next`, transpose, and set `done := result.is_none()` — so `done`
becomes true only on clean end-of-stream, not after an error. -/
def TxnlogFile.next (t : TxnlogFile) : Option (Except JErr Txn) × TxnlogFile :=
  if t.done then (none, t)
  else
    match read_next t.stream with
    | (Except.ok none, s) => (none, ⟨s, true⟩)
    | (Except.ok (some txn), s) => (some (Except.ok txn), ⟨s, false⟩)
    | (Except.error e, s) => (some (Except.error e), ⟨s, false⟩)

/-- Collect up to `fuel` yielded items of a `TxnlogFile`, stopping at the
first end-of-stream answer, and return the final iterator state. -/
def collectTxns : Nat → TxnlogFile → List (Except JErr Txn) × TxnlogFile
  | 0, t => ([], t)
  | fuel + 1, t =>
    match t.next with
    | (none, t1) => ([], t1)
    | (some r, t1) =>
      let (rs, t2) := collectTxns fuel t1
      (r :: rs, t2)

/-- `Session` (`src/proto/persistence/snapshot.rs`): `id: SessionId(i64)`,
`timeout: Duration(i32)`. -/
structure Session where
  id : Int
  timeout : Int
deriving DecidableEq, Repr

/-- `ACLCacheEntry`: `entry_id: ACLRef(i64)` and an ACL list. -/
structure ACLCacheEntry where
  entry_id : Int
  acl : List ACL
deriving DecidableEq, Repr

/-- `StatPersisted` (`src/proto/mod.rs`). -/
structure StatPersisted where
  czxid : Int
  mzxid : Int
  ctime : Nat
  mtime : Nat
  version : Int
  cversion : Int
  aversion : Int
  ephemeral_owner : Int
  pzxid : Int
deriving DecidableEq, Repr

/-- `DataNode`: `serde_bytes` data, `acl: ACLRef(i64)`, persisted stat. -/
structure DataNode where
  data : List Byte
  acl : Int
  stat : StatPersisted
deriving DecidableEq, Repr

/-- Serde decoding of `Session`. -/
def deserialize_Session : DeM Session := do
  let i ← read_i64
  let timeout ← read_i32
  pure ⟨i, timeout⟩

/-- Serde decoding of `ACLCacheEntry`. -/
def deserialize_ACLCacheEntry : DeM ACLCacheEntry := do
  let entry_id ← read_i64
  let acl ← deserialize_seq deserialize_ACL
  pure ⟨entry_id, acl⟩

/-- Serde decoding of `StatPersisted`. -/
def deserialize_StatPersisted : DeM StatPersisted := do
  let czxid ← read_i64
  let mzxid ← read_i64
  let ctime ← read_u64
  let mtime ← read_u64
  let version ← read_i32
  let cversion ← read_i32
  let aversion ← read_i32
  let ephemeral_owner ← read_i64
  let pzxid ← read_i64
  pure ⟨czxid, mzxid, ctime, mtime, version, cversion, aversion, ephemeral_owner, pzxid⟩

/-- Serde decoding of `DataNode`. -/
def deserialize_DataNode : DeM DataNode := do
  let data ← deserialize_byte_buf
  let acl ← read_i64
  let stat ← deserialize_StatPersisted
  pure ⟨data, acl, stat⟩

/-- The runtime fields of `SnapshotFile<S>`: stream position, remaining
item count, and the errored flag (the phase itself is tracked by which
functions below are applied). -/
structure SnapState where
  stream : ByteStream
  count : Nat
  errored : Bool
deriving DecidableEq, Repr

/-- The generic `next_item` of the snapshot phases: yield nothing once the
count is exhausted or the reader errored; otherwise decrement the count,
decode one item, and set `errored` on failure. -/
def next_item (dec : DeM α) (t : SnapState) : Option (Except JErr α) × SnapState :=
  if t.count = 0 || t.errored then (none, t)
  else
    match dec t.stream with
    | (Except.ok a, s) => (some (Except.ok a), ⟨s, t.count - 1, t.errored⟩)
    | (Except.error e, s) => (some (Except.error e), ⟨s, t.count - 1, true⟩)

/-- `SnapshotFile::new_sessions`: read the 4-byte signed session count and
convert it with `as usize` (a two's-complement wrap, **not** the decoder's
negative-count rule). -/
def new_sessions (t : SnapState) : Except JErr SnapState :=
  match read_i32 t.stream with
  | (Except.error e, _) => Except.error e
  | (Except.ok c, s) => Except.ok ⟨s, i32_as_usize c, false⟩

/-- `SnapshotFile::new_acl_cache`: same count handling as `new_sessions`. -/
def new_acl_cache (t : SnapState) : Except JErr SnapState :=
  match read_i32 t.stream with
  | (Except.error e, _) => Except.error e
  | (Except.ok c, s) => Except.ok ⟨s, i32_as_usize c, false⟩

/-- `SnapshotFile::new_data_nodes`: no count prefix; the section ends at the
`"/"` sentinel, so the count is set to 1. -/
def new_data_nodes (t : SnapState) : Except JErr SnapState :=
  Except.ok ⟨t.stream, 1, false⟩

/-- `self.last()` in the phase transitions: pull items until the iterator
answers end-of-stream.  The remaining count bounds the number of pulls. -/
def drainAux (dec : DeM α) : Nat → SnapState → SnapState
  | 0, t => t
  | fuel + 1, t =>
    match next_item dec t with
    | (none, t1) => t1
    | (some _, t1) => drainAux dec fuel t1

/-- Drain a phase completely (the `self.last()` call). -/
def drain (dec : DeM α) (t : SnapState) : SnapState := drainAux dec t.count t

/-- `SnapshotFile::<SessionsState>::acls`: drain the unread sessions, fail
if the phase errored, then read the ACL-cache entry count. -/
def SnapshotFile.acls (t : SnapState) : Except JErr SnapState :=
  let t1 := drain deserialize_Session t
  if t1.errored then Except.error (JErr.Message "Stream already errored out")
  else new_acl_cache t1

/-- `SnapshotFile::<ACLCacheState>::data_nodes`: drain the unread ACL-cache
entries, fail if the phase errored, then enter the data-node phase. -/
def SnapshotFile.data_nodes (t : SnapState) : Except JErr SnapState :=
  let t1 := drain deserialize_ACLCacheEntry t
  if t1.errored then Except.error (JErr.Message "Stream already errored out")
  else new_data_nodes t1

/-- The `"/"` sentinel path closing the data-node section (UTF-8 bytes). -/
def rootPath : List Byte := [(47 : Byte)]

/-- `Iterator::next` for `SnapshotFile<DataNodesState>`: decode a path
(errors mark the reader errored), stop without yielding at the `"/"`
sentinel, otherwise decode the node. -/
def dataNodes_next (t : SnapState) : Option (Except JErr (List Byte × DataNode)) × SnapState :=
  if t.count = 0 || t.errored then (none, t)
  else
    match deserialize_string t.stream with
    | (Except.error e, s) => (some (Except.error e), ⟨s, t.count, true⟩)
    | (Except.ok path, s) =>
      if path = rootPath then (none, ⟨s, 0, t.errored⟩)
      else
        match deserialize_DataNode s with
        | (Except.error e, s1) => (some (Except.error e), ⟨s1, t.count, true⟩)
        | (Except.ok node, s1) => (some (Except.ok (path, node)), ⟨s1, t.count, t.errored⟩)

/-- Stream position after `n` successful runs of a decoder, if they all
succeed. -/
def decodeN (dec : DeM α) : Nat → ByteStream → Option ByteStream
  | 0, s => some s
  | n + 1, s =>
    match dec s with
    | (Except.ok _, s1) => decodeN dec n s1
    | (Except.error _, _) => none

/-- Apply `next_item` `k` times, keeping only the iterator state (a caller
consuming `k` items of a snapshot phase). -/
def stepN (dec : DeM α) : Nat → SnapState → SnapState
  | 0, t => t
  | k + 1, t => stepN dec k (next_item dec t).2

/-- `Path::extension` applied to a file name: split at the last `.`; no dot,
or the only dot at index 0, means no extension. -/
def splitAtLastDot : List Char → Option (List Char × List Char)
  | [] => none
  | c :: rest =>
    match splitAtLastDot rest with
    | some (pre, ext) => some (c :: pre, ext)
    | none => if c = '.' then some ([], rest) else none

/-- `Path::extension` on a file name (the path's last component). -/
def rustExtension (name : List Char) : Option (List Char) :=
  match splitAtLastDot name with
  | some (pre, ext) => if pre = [] then none else some ext
  | none => none

/-- Value of one hexadecimal digit. -/
def hexDigitVal (c : Char) : Option Nat :=
  if '0' ≤ c ∧ c ≤ '9' then some (c.toNat - '0'.toNat)
  else if 'a' ≤ c ∧ c ≤ 'f' then some (c.toNat - 'a'.toNat + 10)
  else if 'A' ≤ c ∧ c ≤ 'F' then some (c.toNat - 'A'.toNat + 10)
  else none

/-- Accumulate hexadecimal digits, failing on a non-digit. -/
def parseHexNatAux : List Char → Nat → Option Nat
  | [], acc => some acc
  | c :: rest, acc =>
    match hexDigitVal c with
    | some d => parseHexNatAux rest (acc * 16 + d)
    | none => none

/-- `i64::from_str_radix(s, 16)`: optional sign, at least one digit, and
failure outside the `i64` range (checked accumulation overflows exactly
when the final value is out of range). -/
def i64_from_str_radix_16 (s : List Char) : Option Int :=
  match s with
  | [] => none
  | '+' :: rest =>
    if rest = [] then none
    else (parseHexNatAux rest 0).bind fun n =>
      if n ≤ 2 ^ 63 - 1 then some (n : Int) else none
  | '-' :: rest =>
    if rest = [] then none
    else (parseHexNatAux rest 0).bind fun n =>
      if n ≤ 2 ^ 63 then some (-(n : Int)) else none
  | _ =>
    (parseHexNatAux s 0).bind fun n =>
      if n ≤ 2 ^ 63 - 1 then some (n : Int) else none

/-- `zxid_from_path` (`src/proto/persistence/mod.rs`): the file extension
parsed as a base-16 `i64`. -/
def zxid_from_path (name : List Char) : Option Int :=
  (rustExtension name).bind i64_from_str_radix_16

/-- The `(zxid, path)` pairs collected by `TxnlogFile::find_txnlog_paths`:
directory entries whose file name starts with `"log."` and whose extension
parses as a zxid. -/
def logEntries (dir : List (List Char)) : List (Int × List Char) :=
  (dir.filter (fun name => List.isPrefixOf "log.".toList name)).filterMap
    (fun name => (zxid_from_path name).map (fun z => (z, name)))

/-- `TxnlogFile::find_txnlog_paths`: sort the `(zxid, path)` pairs by zxid,
find the highest zxid below or at the target (failing when there is none),
and keep the paths at or above it. -/
def find_txnlog_paths (dir : List (List Char)) (snapshot_zxid : Int) :
    Except String (List (List Char)) :=
  let zxid_paths := List.insertionSort (fun a b => a.1 ≤ b.1) (logEntries dir)
  match ((zxid_paths.map Prod.fst).filter (fun z => z ≤ snapshot_zxid)).max? with
  | none => Except.error "No txnlogs found before zxid"
  | some max_zxid =>
    Except.ok (zxid_paths.filterMap
      (fun e => if e.1 < max_zxid then none else some e.2))

/-- A path as its list of components (the model of `PathBuf`). -/
abbrev RPath := List String

/-- `Path::starts_with`: component-wise prefix test. -/
def path_starts_with (p base : RPath) : Bool := List.isPrefixOf base p

/-- Lexicographic component order on paths (the `Ord` used by
`Vec<PathBuf>::sort`). -/
def pathLe : RPath → RPath → Bool
  | [], _ => true
  | _ :: _, [] => false
  | a :: as, b :: bs => if a = b then pathLe as bs else decide (a < b)

/-- `SnapshotFile::most_recent_snapshot`, up to the point of opening the
chosen file: build each entry's full path (`dir` joined with the file
name), keep the paths satisfying `path.starts_with("snapshot.")` — note:
`Path::starts_with`, a whole-component prefix test on the full path, not a
test on the file name — sort, and pop the last one. -/
def most_recent_snapshot_path (dir : RPath) (names : List String) : Option RPath :=
  let snapshot_paths := (names.map (fun n => dir ++ [n])).filter
    (fun p => path_starts_with p ["snapshot."])
  let sorted := List.insertionSort (fun a b => pathLe a b = true) snapshot_paths
  sorted.getLast?

/-! ## Basic evaluation lemmas for the deserializer monad -/

theorem bind_apply (m : DeM α) (f : α → DeM β) (s : ByteStream) :
    (m >>= f) s =
      match m s with
      | (Except.ok a, s1) => f a s1
      | (Except.error e, s1) => (Except.error e, s1) := rfl

theorem pure_apply (a : α) (s : ByteStream) :
    (pure a : DeM α) s = (Except.ok a, s) := rfl

theorem throwE_apply (e : JErr) (s : ByteStream) :
    (throwE e : DeM α) s = (Except.error e, s) := rfl

theorem readBytes_exact (l rest : ByteStream) :
    readBytes l.length (l ++ rest) = (Except.ok l, rest) := by
  simp [readBytes]

theorem readBytes_cons1 (b0 : Byte) (rest : ByteStream) :
    readBytes 1 (b0 :: rest) = (Except.ok [b0], rest) :=
  readBytes_exact [b0] rest

theorem readBytes_cons4 (b0 b1 b2 b3 : Byte) (rest : ByteStream) :
    readBytes 4 (b0 :: b1 :: b2 :: b3 :: rest) = (Except.ok [b0, b1, b2, b3], rest) :=
  readBytes_exact [b0, b1, b2, b3] rest

theorem readBytes_cons8 (b0 b1 b2 b3 b4 b5 b6 b7 : Byte) (rest : ByteStream) :
    readBytes 8 (b0 :: b1 :: b2 :: b3 :: b4 :: b5 :: b6 :: b7 :: rest) =
      (Except.ok [b0, b1, b2, b3, b4, b5, b6, b7], rest) :=
  readBytes_exact [b0, b1, b2, b3, b4, b5, b6, b7] rest

theorem read_u32_cons (b0 b1 b2 b3 : Byte) (rest : ByteStream) :
    read_u32 (b0 :: b1 :: b2 :: b3 :: rest) = (Except.ok (beVal [b0, b1, b2, b3]), rest) := by
  simp [read_u32, bind_apply, readBytes_cons4, pure_apply]

theorem read_i32_cons (b0 b1 b2 b3 : Byte) (rest : ByteStream) :
    read_i32 (b0 :: b1 :: b2 :: b3 :: rest) =
      (Except.ok (toSigned 32 (beVal [b0, b1, b2, b3])), rest) := by
  simp [read_i32, bind_apply, readBytes_cons4, pure_apply]

theorem read_u8_cons (b0 : Byte) (rest : ByteStream) :
    read_u8 (b0 :: rest) = (Except.ok (beVal [b0]), rest) := by
  simp [read_u8, bind_apply, readBytes_cons1, pure_apply]

theorem read_u64_cons (b0 b1 b2 b3 b4 b5 b6 b7 : Byte) (rest : ByteStream) :
    read_u64 (b0 :: b1 :: b2 :: b3 :: b4 :: b5 :: b6 :: b7 :: rest) =
      (Except.ok (beVal [b0, b1, b2, b3, b4, b5, b6, b7]), rest) := by
  simp [read_u64, bind_apply, readBytes_cons8, pure_apply]

/-! ## Claims -/

/-- C3: decoding a sequence or a map whose 4-byte count field is negative
yields an empty container and never an error; for a non-negative count `n`,
exactly `n` elements (or key-value pairs) are then decoded in order. -/
theorem c3_negative_count_empty (α κ ν : Type) (dec : DeM α) (decK : DeM κ) (decV : DeM ν)
    (b0 b1 b2 b3 : Byte) (rest : ByteStream) :
    (toSigned 32 (beVal [b0, b1, b2, b3]) < 0 →
      deserialize_seq dec (b0 :: b1 :: b2 :: b3 :: rest) = (Except.ok [], rest) ∧
      deserialize_map decK decV (b0 :: b1 :: b2 :: b3 :: rest) = (Except.ok [], rest)) ∧
    (0 ≤ toSigned 32 (beVal [b0, b1, b2, b3]) →
      deserialize_seq dec (b0 :: b1 :: b2 :: b3 :: rest) =
        readElems dec (toSigned 32 (beVal [b0, b1, b2, b3])).toNat rest ∧
      deserialize_map decK decV (b0 :: b1 :: b2 :: b3 :: rest) =
        readPairs decK decV (toSigned 32 (beVal [b0, b1, b2, b3])).toNat rest) := by
  constructor
  · intro h
    constructor
    · simp [deserialize_seq, bind_apply, read_i32_cons, seqSize, if_pos h, readElems, pure_apply]
    · simp [deserialize_map, bind_apply, read_i32_cons, seqSize, if_pos h, readPairs, pure_apply]
  · intro h
    have h1 : ¬ toSigned 32 (beVal [b0, b1, b2, b3]) < 0 := by omega
    constructor
    · simp [deserialize_seq, bind_apply, read_i32_cons, seqSize, if_neg h1]
    · simp [deserialize_map, bind_apply, read_i32_cons, seqSize, if_neg h1]

/-- Witness for C3 at concrete inputs: count `-1` gives the empty list and
count `2` decodes two bytes. -/
theorem c3_negative_count_empty_witness :
    deserialize_seq read_u8 ([255, 255, 255, 255, 7, 7] : ByteStream) = (Except.ok [], [7, 7]) ∧
    deserialize_map read_u8 read_u8 ([255, 255, 255, 255] : ByteStream) = (Except.ok [], []) ∧
    deserialize_seq read_u8 ([0, 0, 0, 2, 7, 8, 9] : ByteStream) =
      readElems read_u8 2 ([7, 8, 9] : ByteStream) := by
  refine ⟨((c3_negative_count_empty Nat Nat Nat read_u8 read_u8 read_u8
      255 255 255 255 [7, 7]).1 (by decide)).1,
    ((c3_negative_count_empty Nat Nat Nat read_u8 read_u8 read_u8
      255 255 255 255 []).1 (by decide)).2, ?_⟩
  have h := ((c3_negative_count_empty Nat Nat Nat read_u8 read_u8 read_u8
      0 0 0 2 [7, 8, 9]).2 (by decide)).1
  simpa using h

/-- C10: the 1 MiB maximum is enforced only for strings.
`deserialize_byte_buf` just attempts to read the advertised number of raw
bytes and never produces the size-limit error, while `deserialize_str` and
`deserialize_string` fail with `TooLarge` on every prefix above the
maximum — in particular on every prefix with the sign bit set, because the
length is read as an unsigned 32-bit value. -/
theorem c10_size_limit_strings_only (b0 b1 b2 b3 : Byte) (rest : ByteStream) :
    deserialize_byte_buf (b0 :: b1 :: b2 :: b3 :: rest) =
      readBytes (beVal [b0, b1, b2, b3]) rest ∧
    (∀ m, (deserialize_byte_buf (b0 :: b1 :: b2 :: b3 :: rest)).1 ≠
      Except.error (JErr.TooLarge m)) ∧
    (MAX_LENGTH < beVal [b0, b1, b2, b3] →
      deserialize_str (b0 :: b1 :: b2 :: b3 :: rest) =
        (Except.error (JErr.TooLarge (beVal [b0, b1, b2, b3])), rest) ∧
      deserialize_string (b0 :: b1 :: b2 :: b3 :: rest) =
        (Except.error (JErr.TooLarge (beVal [b0, b1, b2, b3])), rest)) ∧
    (128 ≤ b0.val → MAX_LENGTH < beVal [b0, b1, b2, b3]) := by
  have hbuf : deserialize_byte_buf (b0 :: b1 :: b2 :: b3 :: rest) =
      readBytes (beVal [b0, b1, b2, b3]) rest := by
    simp [deserialize_byte_buf, bind_apply, read_u32_cons]
  refine ⟨hbuf, ?_, ?_, ?_⟩
  · intro m
    rw [hbuf]
    unfold readBytes
    split <;> simp
  · intro h
    constructor
    · simp [deserialize_str, bind_apply, read_u32_cons, if_pos h, throwE_apply]
    · simp [deserialize_string, bind_apply, read_u32_cons, if_pos h, throwE_apply]
  · intro h
    have hb1 : 0 ≤ b1.val := Nat.zero_le _
    simp only [beVal, List.foldl, MAX_LENGTH]
    omega

/-- Witness for C10 at the all-ones prefix (sign bit set, value above the
maximum): the byte buffer read attempts the raw read while the string reads
fail with the size-limit error. -/
theorem c10_size_limit_strings_only_witness :
    (128 ≤ (255 : Byte).val ∧ MAX_LENGTH < beVal [255, 255, 255, 255]) ∧
    deserialize_str ([255, 255, 255, 255] : ByteStream) =
      (Except.error (JErr.TooLarge (beVal [255, 255, 255, 255])), []) ∧
    deserialize_byte_buf ([255, 255, 255, 255] : ByteStream) =
      readBytes (beVal [255, 255, 255, 255]) [] := by
  have h := c10_size_limit_strings_only 255 255 255 255 []
  exact ⟨⟨by decide, h.2.2.2 (by decide)⟩, (h.2.2.1 (h.2.2.2 (by decide))).1, h.1⟩

theorem bind_apply_ok {α β : Type} {m : DeM α} {f : α → DeM β} {s s1 : ByteStream} {a : α}
    (h : m s = (Except.ok a, s1)) : (m >>= f) s = f a s1 := by
  show DeM.bind m f s = f a s1
  unfold DeM.bind
  rw [h]

theorem bind_apply_error {α β : Type} {m : DeM α} {f : α → DeM β} {s s1 : ByteStream} {e : JErr}
    (h : m s = (Except.error e, s1)) : (m >>= f) s = (Except.error e, s1) := by
  show DeM.bind m f s = (Except.error e, s1)
  unfold DeM.bind
  rw [h]

theorem variant_seed_eq (ty : String) (m : EnumMapping) (reg : EnumRegistry)
    (h : lookupType reg ty = some m) (s : ByteStream) :
    variant_seed reg ty s =
      (readDiscriminant m.order >>= fun d =>
        match lookupCode m.codes_to_names d with
        | none => throwE (JErr.Message ("Wrong discriminant for " ++ ty ++ ": " ++ toString d))
        | some name => pure name) s := by
  unfold variant_seed
  rw [h]

/-- C9: the concrete enum scenario — buffer `00 00 00 03 01 02 03 04`
decoded as an enum registered with discriminant 3 mapped to `Foo(i32)`
under the type-only layout yields `Foo(0x01020304)`.  More generally the
discriminant is read as a 4-byte big-endian signed integer; the extra
length field is consumed and discarded for the length-then-type and
type-then-length layouts; an unknown discriminant or an unregistered enum
type is an error. -/
theorem c9_enum_decoding :
    deserialize_FooBar fooBarRegistry ([0, 0, 0, 3, 1, 2, 3, 4] : ByteStream) =
      (Except.ok (FooBar.Foo 16909060), []) ∧
    (∀ (ty : String) (tbl : List (Int × String)) (b0 b1 b2 b3 : Byte) (rest : ByteStream),
      variant_seed [(ty, ⟨tbl, EnumEncoding.TypeOnly⟩)] ty (b0 :: b1 :: b2 :: b3 :: rest) =
        (match lookupCode tbl (toSigned 32 (beVal [b0, b1, b2, b3])) with
         | some name => (Except.ok name, rest)
         | none => (Except.error (JErr.Message ("Wrong discriminant for " ++ ty ++ ": " ++
             toString (toSigned 32 (beVal [b0, b1, b2, b3])))), rest))) ∧
    (∀ (ty : String) (tbl : List (Int × String))
       (l0 l1 l2 l3 t0 t1 t2 t3 : Byte) (rest : ByteStream),
      variant_seed [(ty, ⟨tbl, EnumEncoding.LengthThenType⟩)] ty
          (l0 :: l1 :: l2 :: l3 :: t0 :: t1 :: t2 :: t3 :: rest) =
        (match lookupCode tbl (toSigned 32 (beVal [t0, t1, t2, t3])) with
         | some name => (Except.ok name, rest)
         | none => (Except.error (JErr.Message ("Wrong discriminant for " ++ ty ++ ": " ++
             toString (toSigned 32 (beVal [t0, t1, t2, t3])))), rest))) ∧
    (∀ (ty : String) (tbl : List (Int × String))
       (t0 t1 t2 t3 l0 l1 l2 l3 : Byte) (rest : ByteStream),
      variant_seed [(ty, ⟨tbl, EnumEncoding.TypeThenLength⟩)] ty
          (t0 :: t1 :: t2 :: t3 :: l0 :: l1 :: l2 :: l3 :: rest) =
        (match lookupCode tbl (toSigned 32 (beVal [t0, t1, t2, t3])) with
         | some name => (Except.ok name, rest)
         | none => (Except.error (JErr.Message ("Wrong discriminant for " ++ ty ++ ": " ++
             toString (toSigned 32 (beVal [t0, t1, t2, t3])))), rest))) ∧
    (∀ (ty : String) (s : ByteStream),
      variant_seed [] ty s =
        (Except.error (JErr.Message ("Cannot find mapping for type " ++ ty)), s)) ∧
    (∀ rest : ByteStream,
      deserialize_FooBar fooBarRegistry (0 :: 0 :: 0 :: 5 :: rest) =
        (Except.error (JErr.Message "Wrong discriminant for FooBar: 5"), rest)) := by
  refine ⟨by decide, ?_, ?_, ?_, ?_, ?_⟩
  · intro ty tbl b0 b1 b2 b3 rest
    rw [variant_seed_eq ty ⟨tbl, EnumEncoding.TypeOnly⟩ _ (by simp [lookupType, List.find?]) _]
    simp only [readDiscriminant]
    rw [bind_apply_ok (read_i32_cons b0 b1 b2 b3 rest)]
    cases h : lookupCode tbl (toSigned 32 (beVal [b0, b1, b2, b3])) <;>
      simp [h, pure_apply, throwE_apply]
  · intro ty tbl l0 l1 l2 l3 t0 t1 t2 t3 rest
    rw [variant_seed_eq ty ⟨tbl, EnumEncoding.LengthThenType⟩ _
      (by simp [lookupType, List.find?]) _]
    have hM : readDiscriminant EnumEncoding.LengthThenType
        (l0 :: l1 :: l2 :: l3 :: t0 :: t1 :: t2 :: t3 :: rest) =
        (Except.ok (toSigned 32 (beVal [t0, t1, t2, t3])), rest) := by
      simp only [readDiscriminant]
      rw [bind_apply_ok (read_i32_cons l0 l1 l2 l3 _)]
      exact read_i32_cons t0 t1 t2 t3 rest
    rw [bind_apply_ok hM]
    cases h : lookupCode tbl (toSigned 32 (beVal [t0, t1, t2, t3])) <;>
      simp [h, pure_apply, throwE_apply]
  · intro ty tbl t0 t1 t2 t3 l0 l1 l2 l3 rest
    rw [variant_seed_eq ty ⟨tbl, EnumEncoding.TypeThenLength⟩ _
      (by simp [lookupType, List.find?]) _]
    have hM : readDiscriminant EnumEncoding.TypeThenLength
        (t0 :: t1 :: t2 :: t3 :: l0 :: l1 :: l2 :: l3 :: rest) =
        (Except.ok (toSigned 32 (beVal [t0, t1, t2, t3])), rest) := by
      simp only [readDiscriminant]
      rw [bind_apply_ok (read_i32_cons t0 t1 t2 t3 _)]
      rw [bind_apply_ok (read_i32_cons l0 l1 l2 l3 _)]
      exact pure_apply _ _
    rw [bind_apply_ok hM]
    cases h : lookupCode tbl (toSigned 32 (beVal [t0, t1, t2, t3])) <;>
      simp [h, pure_apply, throwE_apply]
  · intro ty s
    simp [variant_seed, lookupType, List.find?]
  · intro rest
    have hv : variant_seed fooBarRegistry "FooBar" (0 :: 0 :: 0 :: 5 :: rest) =
        (Except.error (JErr.Message "Wrong discriminant for FooBar: 5"), rest) := by
      rw [variant_seed_eq "FooBar" ⟨[(3, "Foo"), (4, "Bar")], EnumEncoding.TypeOnly⟩ _
        (by simp [fooBarRegistry, lookupType, List.find?]) _]
      simp only [readDiscriminant]
      rw [bind_apply_ok (read_i32_cons 0 0 0 5 rest)]
      have h5 : toSigned 32 (beVal ([0, 0, 0, 5] : List Byte)) = 5 := by decide
      rw [h5]
      simp only [lookupCode, List.find?]
      norm_num
      rw [throwE_apply]
      have hs : ("Wrong discriminant for " ++ "FooBar" ++ ": " ++ toString (5 : Int)) =
          "Wrong discriminant for FooBar: 5" := by decide
      rw [hs]
    unfold deserialize_FooBar
    rw [bind_apply_error hv]

theorem beVal4_lt (b0 b1 b2 b3 : Byte) : beVal [b0, b1, b2, b3] < 2 ^ 32 := by
  have h0 := b0.isLt
  have h1 := b1.isLt
  have h2 := b2.isLt
  have h3 := b3.isLt
  simp only [beVal, List.foldl]
  omega

/-- C2 counterexample: a snapshot whose 4-byte session count is `-1`
(bytes `FF FF FF FF`) enters the sessions phase with the wrapped count
`2^64 - 1`, not zero, and the first `next()` call attempts a read and
yields an end-of-stream error item instead of yielding zero records. -/
theorem c2_counterexample :
    new_sessions ⟨[255, 255, 255, 255], 0, false⟩ =
      Except.ok ⟨[], 18446744073709551615, false⟩ ∧
    (18446744073709551615 : Nat) ≠ 0 ∧
    (next_item deserialize_Session ⟨[], 18446744073709551615, false⟩).1 =
      some (Except.error JErr.Eof) := by
  refine ⟨by decide, by decide, by decide⟩

/-- C2 (amended): `sessions()` and `acls()` read the 4-byte count as a raw
signed 32-bit value and convert it with `as usize`, a two's-complement
wrap — not the decoder's negative-means-zero rule.  A negative count `c`
therefore becomes the huge count `2^64 + c`, never zero. -/
theorem c2_negative_count_wraps (b0 b1 b2 b3 : Byte) (rest : ByteStream)
    (c0 : Nat) (e0 : Bool) :
    new_sessions ⟨b0 :: b1 :: b2 :: b3 :: rest, c0, e0⟩ =
      Except.ok ⟨rest, i32_as_usize (toSigned 32 (beVal [b0, b1, b2, b3])), false⟩ ∧
    new_acl_cache ⟨b0 :: b1 :: b2 :: b3 :: rest, c0, e0⟩ =
      Except.ok ⟨rest, i32_as_usize (toSigned 32 (beVal [b0, b1, b2, b3])), false⟩ ∧
    (toSigned 32 (beVal [b0, b1, b2, b3]) < 0 →
      (i32_as_usize (toSigned 32 (beVal [b0, b1, b2, b3])) : Int) =
        2 ^ 64 + toSigned 32 (beVal [b0, b1, b2, b3]) ∧
      i32_as_usize (toSigned 32 (beVal [b0, b1, b2, b3])) ≠ 0) := by
  refine ⟨?_, ?_, ?_⟩
  · simp [new_sessions, read_i32_cons]
  · simp [new_acl_cache, read_i32_cons]
  · intro hneg
    have hlt := beVal4_lt b0 b1 b2 b3
    have hbound : -(2 ^ 31) ≤ toSigned 32 (beVal [b0, b1, b2, b3]) := by
      simp only [toSigned]
      split <;> omega
    simp only [i32_as_usize]
    constructor <;> omega

/-- Witness for C2 (amended) at the all-ones count. -/
theorem c2_negative_count_wraps_witness :
    new_sessions ⟨[255, 255, 255, 255], 0, false⟩ =
      Except.ok ⟨[], i32_as_usize (toSigned 32 (beVal [255, 255, 255, 255])), false⟩ ∧
    toSigned 32 (beVal ([255, 255, 255, 255] : List Byte)) < 0 ∧
    i32_as_usize (toSigned 32 (beVal ([255, 255, 255, 255] : List Byte))) ≠ 0 := by
  have h := c2_negative_count_wraps 255 255 255 255 [] 0 false
  exact ⟨h.1, by decide, (h.2.2 (by decide)).2⟩

theorem drainAux_errored (dec : DeM α) (n : Nat) (t : SnapState) (h : t.errored = true) :
    drainAux dec n t = t := by
  induction n with
  | zero => rfl
  | succ n _ => simp [drainAux, next_item, h]

theorem drain_errored (dec : DeM α) (t : SnapState) (h : t.errored = true) :
    drain dec t = t :=
  drainAux_errored dec t.count t h

/-- C5 counterexample: in the sessions phase with two announced sessions
and an exhausted stream, the first `next()` yields a decode error and marks
the reader errored — but the following `next()` call returns no item (the
same answer as a cleanly completed section), not an error, contradicting
the claim that every subsequent call within the phase must fail. -/
theorem c5_counterexample :
    next_item deserialize_Session ⟨[], 2, false⟩ =
      (some (Except.error JErr.Eof), ⟨[], 1, true⟩) ∧
    next_item deserialize_Session ⟨[], 1, true⟩ =
      (none, ⟨[], 1, true⟩) := by
  exact ⟨by decide, by decide⟩

/-- C5 (amended): once a decode call inside a phase fails the reader is
marked errored, and every attempt to advance to the next phase then fails
with an error; but further `next()` calls within the phase (including the
data-node phase) yield no further items — indistinguishable at the
iterator level from a cleanly completed section — rather than an error. -/
theorem c5_errored_behavior (α : Type) (dec : DeM α) (t : SnapState) :
    (t.errored = false → t.count ≠ 0 →
      ∀ (e : JErr) (s1 : ByteStream), dec t.stream = (Except.error e, s1) →
      next_item dec t = (some (Except.error e), ⟨s1, t.count - 1, true⟩)) ∧
    (t.errored = true → next_item dec t = (none, t)) ∧
    (t.errored = true →
      SnapshotFile.acls t = Except.error (JErr.Message "Stream already errored out")) ∧
    (t.errored = true →
      SnapshotFile.data_nodes t = Except.error (JErr.Message "Stream already errored out")) ∧
    (t.errored = true → dataNodes_next t = (none, t)) := by
  refine ⟨?_, ?_, ?_, ?_, ?_⟩
  · intro herr hcount e s1 hdec
    simp [next_item, herr, hcount, hdec]
  · intro herr
    simp [next_item, herr]
  · intro herr
    unfold SnapshotFile.acls
    rw [drain_errored _ _ herr]
    simp [herr]
  · intro herr
    unfold SnapshotFile.data_nodes
    rw [drain_errored _ _ herr]
    simp [herr]
  · intro herr
    simp [dataNodes_next, herr]

/-- Witness for C5 (amended): concrete errored states in each phase. -/
theorem c5_errored_behavior_witness :
    next_item deserialize_Session ⟨[], 2, false⟩ =
      (some (Except.error JErr.Eof), ⟨[], 1, true⟩) ∧
    next_item deserialize_Session ⟨[], 1, true⟩ = (none, ⟨[], 1, true⟩) ∧
    SnapshotFile.acls ⟨[], 1, true⟩ =
      Except.error (JErr.Message "Stream already errored out") ∧
    SnapshotFile.data_nodes ⟨[], 1, true⟩ =
      Except.error (JErr.Message "Stream already errored out") ∧
    dataNodes_next ⟨[], 1, true⟩ = (none, ⟨[], 1, true⟩) := by
  have h1 := c5_errored_behavior Session deserialize_Session ⟨[], 2, false⟩
  have h2 := c5_errored_behavior Session deserialize_Session ⟨[], 1, true⟩
  exact ⟨h1.1 rfl (by decide) JErr.Eof [] (by decide), h2.2.1 rfl,
    h2.2.2.1 rfl, h2.2.2.2.1 rfl, h2.2.2.2.2 rfl⟩

/-- C1 counterexample: a txnlog whose first record has guard byte `0x00`
followed by a fully valid second record.  The first `next()` yields the
partial-transaction error, but the iterator does **not** transition to
`Done` (`done` is still `false`), and the following `next()` re-attempts a
read and yields the second transaction — contradicting the claim that
every call after the error returns end-of-stream. -/
theorem c1_counterexample :
    (TxnlogFile.next ⟨(List.replicate 8 0 ++ [0, 0, 0, 1] ++
        (List.replicate 28 0 ++ [255, 255, 255, 245]) ++ [0]) ++
        (List.replicate 8 0 ++ [0, 0, 0, 1] ++
        (List.replicate 28 0 ++ [255, 255, 255, 245]) ++ [66]), false⟩).1 =
      some (Except.error (JErr.Message "Last transaction was partial.")) ∧
    ((TxnlogFile.next ⟨(List.replicate 8 0 ++ [0, 0, 0, 1] ++
        (List.replicate 28 0 ++ [255, 255, 255, 245]) ++ [0]) ++
        (List.replicate 8 0 ++ [0, 0, 0, 1] ++
        (List.replicate 28 0 ++ [255, 255, 255, 245]) ++ [66]), false⟩).2).done = false ∧
    ((TxnlogFile.next (TxnlogFile.next ⟨(List.replicate 8 0 ++ [0, 0, 0, 1] ++
        (List.replicate 28 0 ++ [255, 255, 255, 245]) ++ [0]) ++
        (List.replicate 8 0 ++ [0, 0, 0, 1] ++
        (List.replicate 28 0 ++ [255, 255, 255, 245]) ++ [66]), false⟩).2).1) =
      some (Except.ok ⟨⟨0, 0, 0, 0⟩, TxnOperation.CloseSession⟩) := by
  refine ⟨by decide, by decide, by decide⟩

/-- C1 (amended): on a record whose guard byte is not `0x42`, `next()`
yields the partial-transaction error, but the iterator does not enter the
terminal `Done` state: `done` is set only when `read_next` reports
end-of-stream, so after an error `done` remains `false` and the next call
re-attempts a read (and can yield further items).  Once `done` is set,
`next()` does always return end-of-stream. -/
theorem c1_partial_record_not_done (crc : List Byte) (ln0 ln1 ln2 ln3 : Byte)
    (body rest : ByteStream) (txn : Txn) (b : Byte)
    (hcrc : crc.length = 8)
    (hlen : beVal [ln0, ln1, ln2, ln3] ≠ 0)
    (htxn : deserialize_Txn txnlogRegistry body = (Except.ok txn, b :: rest))
    (hb : b.val ≠ 0x42) :
    TxnlogFile.next ⟨crc ++ ln0 :: ln1 :: ln2 :: ln3 :: body, false⟩ =
      (some (Except.error (JErr.Message "Last transaction was partial.")), ⟨rest, false⟩) ∧
    (∀ s : ByteStream, TxnlogFile.next ⟨s, true⟩ = (none, ⟨s, true⟩)) := by
  have h64 : read_u64 (crc ++ ln0 :: ln1 :: ln2 :: ln3 :: body) =
      (Except.ok (beVal crc), ln0 :: ln1 :: ln2 :: ln3 :: body) := by
    unfold read_u64
    rw [bind_apply_ok (show readBytes 8 (crc ++ ln0 :: ln1 :: ln2 :: ln3 :: body) =
      (Except.ok crc, ln0 :: ln1 :: ln2 :: ln3 :: body) from
      hcrc ▸ readBytes_exact crc (ln0 :: ln1 :: ln2 :: ln3 :: body))]
    exact pure_apply _ _
  have hbv : beVal [b] ≠ 0x42 := by
    simpa [beVal] using hb
  have hrn : read_next (crc ++ ln0 :: ln1 :: ln2 :: ln3 :: body) =
      (Except.error (JErr.Message "Last transaction was partial."), rest) := by
    unfold read_next
    rw [bind_apply_ok h64]
    rw [bind_apply_ok (read_u32_cons ln0 ln1 ln2 ln3 body)]
    rw [if_neg hlen]
    rw [bind_apply_ok htxn]
    rw [bind_apply_ok (read_u8_cons b rest)]
    rw [if_pos hbv]
    exact throwE_apply _ _
  constructor
  · simp [TxnlogFile.next, hrn]
  · intro s
    simp [TxnlogFile.next]

/-- Witness for C1 (amended) on the concrete bad-guard record. -/
theorem c1_partial_record_not_done_witness :
    TxnlogFile.next ⟨List.replicate 8 0 ++ (0 : Byte) :: (0 : Byte) :: (0 : Byte) :: (1 : Byte) ::
        ((List.replicate 28 0 ++ [255, 255, 255, 245]) ++ [0]), false⟩ =
      (some (Except.error (JErr.Message "Last transaction was partial.")), ⟨[], false⟩) := by
  exact (c1_partial_record_not_done (List.replicate 8 0) 0 0 0 1
    ((List.replicate 28 0 ++ [255, 255, 255, 245]) ++ [0]) [] ⟨⟨0, 0, 0, 0⟩,
      TxnOperation.CloseSession⟩ 0
    (by decide) (by decide) (by decide) (by decide)).1

/-- C8: a record whose 4-byte length field is exactly zero is a clean end:
`next()` reports end-of-stream with no error and transitions to `Done`,
after which every call returns end-of-stream; a full run over a log with
two valid records and then a zero length yields exactly the two
transactions and stops. -/
theorem c8_zero_length_clean_end :
    (∀ (c0 c1 c2 c3 c4 c5 c6 c7 : Byte) (rest : ByteStream),
      TxnlogFile.next ⟨c0 :: c1 :: c2 :: c3 :: c4 :: c5 :: c6 :: c7 ::
          (0 : Byte) :: (0 : Byte) :: (0 : Byte) :: (0 : Byte) :: rest, false⟩ =
        (none, ⟨rest, true⟩)) ∧
    (∀ s : ByteStream, TxnlogFile.next ⟨s, true⟩ = (none, ⟨s, true⟩)) ∧
    collectTxns 5 ⟨(List.replicate 8 0 ++ [0, 0, 0, 1] ++
        (List.replicate 28 0 ++ [255, 255, 255, 245]) ++ [66]) ++
        ((List.replicate 8 0 ++ [0, 0, 0, 1] ++
        (List.replicate 28 0 ++ [255, 255, 255, 245]) ++ [66]) ++
        (List.replicate 8 0 ++ [0, 0, 0, 0])), false⟩ =
      ([Except.ok ⟨⟨0, 0, 0, 0⟩, TxnOperation.CloseSession⟩,
        Except.ok ⟨⟨0, 0, 0, 0⟩, TxnOperation.CloseSession⟩], ⟨[], true⟩) := by
  refine ⟨?_, ?_, by decide⟩
  · intro c0 c1 c2 c3 c4 c5 c6 c7 rest
    have hrn : read_next (c0 :: c1 :: c2 :: c3 :: c4 :: c5 :: c6 :: c7 ::
        (0 : Byte) :: (0 : Byte) :: (0 : Byte) :: (0 : Byte) :: rest) =
        (Except.ok none, rest) := by
      unfold read_next
      rw [bind_apply_ok (read_u64_cons c0 c1 c2 c3 c4 c5 c6 c7 _)]
      rw [bind_apply_ok (read_u32_cons 0 0 0 0 rest)]
      rw [if_pos (by decide : beVal [(0 : Byte), 0, 0, 0] = 0)]
      exact pure_apply _ _
    simp [TxnlogFile.next, hrn]
  · intro s
    simp [TxnlogFile.next]

theorem decodeN_append (dec : DeM α) (a b : Nat) (s : ByteStream) :
    decodeN dec (a + b) s = (decodeN dec a s).bind (fun m => decodeN dec b m) := by
  induction a generalizing s with
  | zero => simp [decodeN]
  | succ a ih =>
    rw [Nat.succ_add]
    show (match dec s with
      | (Except.ok _, s1) => decodeN dec (a + b) s1
      | (Except.error _, _) => none) = _
    cases hd : dec s with
    | mk r s1 =>
      cases r with
      | ok v => simp [decodeN, hd, ih]
      | error e => simp [decodeN, hd]

theorem stepN_ok (dec : DeM α) :
    ∀ (k N : Nat) (s mid : ByteStream), k ≤ N → decodeN dec k s = some mid →
    stepN dec k ⟨s, N, false⟩ = ⟨mid, N - k, false⟩ := by
  intro k
  induction k with
  | zero =>
    intro N s mid _ h
    simp only [decodeN, Option.some_inj] at h
    subst h
    rfl
  | succ k ih =>
    intro N s mid hk h
    cases hd : dec s with
    | mk r s1 =>
      cases r with
      | ok v =>
        have hN : N ≠ 0 := by omega
        have hdec : decodeN dec k s1 = some mid := by
          simpa [decodeN, hd] using h
        have hnext : next_item dec ⟨s, N, false⟩ = (some (Except.ok v), ⟨s1, N - 1, false⟩) := by
          simp [next_item, hN, hd]
        show stepN dec k (next_item dec ⟨s, N, false⟩).2 = _
        rw [hnext]
        rw [ih (N - 1) s1 mid (by omega) hdec]
        have : N - 1 - k = N - (k + 1) := by omega
        rw [this]
      | error e =>
        exfalso
        simp [decodeN, hd] at h

theorem drain_ok (dec : DeM α) :
    ∀ (n : Nat) (s rest : ByteStream), decodeN dec n s = some rest →
    drainAux dec n ⟨s, n, false⟩ = ⟨rest, 0, false⟩ := by
  intro n
  induction n with
  | zero =>
    intro s rest h
    simp only [decodeN, Option.some_inj] at h
    subst h
    rfl
  | succ n ih =>
    intro s rest h
    cases hd : dec s with
    | mk r s1 =>
      cases r with
      | ok v =>
        have hdec : decodeN dec n s1 = some rest := by
          simpa [decodeN, hd] using h
        have hnext : next_item dec ⟨s, n + 1, false⟩ =
            (some (Except.ok v), ⟨s1, n, false⟩) := by
          simp [next_item, hd]
        show drainAux dec (n + 1) ⟨s, n + 1, false⟩ = _
        rw [drainAux, hnext]
        exact ih s1 rest hdec
      | error e =>
        exfalso
        simp [decodeN, hd] at h

/-- C7: for a snapshot whose `N` announced sessions all decode, calling
`acls()` after consuming only `k ≤ N` sessions leaves the reader exactly
where consuming all `N` first would: both usage styles produce the same
`acls()` result, namely the ACL phase entered at the stream position after
the whole session section. -/
theorem c7_acls_position_independent (N k : Nat) (s rest : ByteStream) (hk : k ≤ N)
    (h : decodeN deserialize_Session N s = some rest) :
    SnapshotFile.acls (stepN deserialize_Session k ⟨s, N, false⟩) =
      SnapshotFile.acls (stepN deserialize_Session N ⟨s, N, false⟩) ∧
    SnapshotFile.acls (stepN deserialize_Session k ⟨s, N, false⟩) =
      new_acl_cache ⟨rest, 0, false⟩ := by
  have hsplit : decodeN deserialize_Session (k + (N - k)) s = some rest := by
    have hkn : k + (N - k) = N := by omega
    rw [hkn]
    exact h
  rw [decodeN_append] at hsplit
  cases hmid : decodeN deserialize_Session k s with
  | none =>
    rw [hmid] at hsplit
    exact Option.noConfusion hsplit
  | some mid =>
    rw [hmid] at hsplit
    have hsplit2 : decodeN deserialize_Session (N - k) mid = some rest := hsplit
    have hL : stepN deserialize_Session k ⟨s, N, false⟩ = ⟨mid, N - k, false⟩ :=
      stepN_ok deserialize_Session k N s mid hk hmid
    have hR : stepN deserialize_Session N ⟨s, N, false⟩ = ⟨rest, N - N, false⟩ :=
      stepN_ok deserialize_Session N N s rest (le_refl N) h
    have hdrL : drain deserialize_Session ⟨mid, N - k, false⟩ = ⟨rest, 0, false⟩ :=
      drain_ok deserialize_Session (N - k) mid rest hsplit2
    have hdrR : drain deserialize_Session ⟨rest, N - N, false⟩ = ⟨rest, 0, false⟩ := by
      have hnn : N - N = 0 := by omega
      rw [hnn]
      rfl
    rw [hL, hR]
    unfold SnapshotFile.acls
    rw [hdrL, hdrR]
    exact ⟨rfl, rfl⟩

/-- Witness for C7: two sessions of zero bytes, one consumed before
`acls()`. -/
theorem c7_acls_position_independent_witness :
    (1 ≤ 2 ∧ decodeN deserialize_Session 2 (List.replicate 24 0 ++ [0, 0, 0, 3]) =
      some [0, 0, 0, 3]) ∧
    SnapshotFile.acls (stepN deserialize_Session 1
        ⟨List.replicate 24 0 ++ [0, 0, 0, 3], 2, false⟩) =
      SnapshotFile.acls (stepN deserialize_Session 2
        ⟨List.replicate 24 0 ++ [0, 0, 0, 3], 2, false⟩) := by
  exact ⟨⟨by decide, by decide⟩,
    (c7_acls_position_independent 2 1 (List.replicate 24 0 ++ [0, 0, 0, 3]) [0, 0, 0, 3]
      (by decide) (by decide)).1⟩

/-- C6: the snapshot-discovery filter uses `Path::starts_with`, a
whole-component prefix test on the joined path, so for an ordinary
directory (whose first component is not literally `"snapshot."`) no entry
ever matches: the function returns no snapshot even when the directory
contains correctly named snapshot files, and the file name itself only
passes when it is exactly the single component `"snapshot."`. -/
theorem c6_snapshot_filter_never_matches :
    most_recent_snapshot_path ["data"] ["snapshot.1000005d0"] = none ∧
    most_recent_snapshot_path [] ["snapshot.1000005d0", "snapshot.2"] = none ∧
    (∀ (d0 : String) (dir : RPath) (names : List String), d0 = "snapshot." ∨
      most_recent_snapshot_path (d0 :: dir) names = none) ∧
    most_recent_snapshot_path [] ["snapshot."] = some ["snapshot."] := by
  refine ⟨by decide, by decide, ?_, by decide⟩
  intro d0 dir names
  by_cases hne : d0 = "snapshot."
  · exact Or.inl hne
  refine Or.inr ?_
  unfold most_recent_snapshot_path
  have hfilter : ((names.map (fun n => (d0 :: dir) ++ [n])).filter
      (fun p => path_starts_with p ["snapshot."])) = [] := by
    rw [List.filter_eq_nil_iff]
    intro p hp
    rw [List.mem_map] at hp
    obtain ⟨n, _, rfl⟩ := hp
    simp only [path_starts_with, List.isPrefixOf, List.cons_append]
    simp [Ne.symm hne]
  rw [hfilter]
  rfl

theorem filterMap_keep_ge (m : Int) (l : List (Int × List Char)) :
    l.filterMap (fun e => if e.1 < m then none else some e.2) =
      (l.filter (fun e => decide (m ≤ e.1))).map Prod.snd := by
  induction l with
  | nil => rfl
  | cons a l ih =>
    by_cases h : a.1 < m
    · rw [List.filterMap_cons, List.filter_cons]
      simp [h, ih, not_le.mpr h]
    · rw [List.filterMap_cons, List.filter_cons]
      simp [h, ih, not_lt.mp h]

/-- C4: segment discovery — with ids `{1, 5, 10}` (file names `log.1`,
`log.5`, `log.a`) and target 7 it returns `[log.5, log.a]`, and with
target 0 it fails; in general it fails exactly when no parsed segment id
is below or at the target, and on success it returns exactly the segments
whose id is at least the highest id below or at the target, sorted
ascending by id. -/
theorem c4_find_txnlog_paths :
    find_txnlog_paths ["log.1".toList, "log.5".toList, "log.a".toList] 7 =
      Except.ok ["log.5".toList, "log.a".toList] ∧
    find_txnlog_paths ["log.1".toList, "log.5".toList, "log.a".toList] 0 =
      Except.error "No txnlogs found before zxid" ∧
    (∀ (dir : List (List Char)) (target : Int),
      (find_txnlog_paths dir target = Except.error "No txnlogs found before zxid" ↔
        ∀ e ∈ logEntries dir, target < e.1)) ∧
    (∀ (dir : List (List Char)) (target : Int) (res : List (List Char)),
      find_txnlog_paths dir target = Except.ok res →
      ∃ (m : Int) (l : List (Int × List Char)),
        (m ∈ (logEntries dir).map Prod.fst ∧ m ≤ target ∧
          ∀ z ∈ (logEntries dir).map Prod.fst, z ≤ target → z ≤ m) ∧
        res = l.map Prod.snd ∧
        l.Perm ((logEntries dir).filter (fun e => decide (m ≤ e.1))) ∧
        l.Pairwise (fun a b => a.1 ≤ b.1)) := by
  haveI : Std.Antisymm (fun x1 x2 : Int => x1 ≤ x2) :=
    ⟨fun h1 h2 => le_antisymm h1 h2⟩
  have hmax : ∀ (xs : List Int) (a : Int), xs.max? = some a ↔ a ∈ xs ∧ ∀ b ∈ xs, b ≤ a := by
    intro xs a
    exact List.max?_eq_some_iff (fun x => le_refl x) (fun x y => max_choice x y)
      (fun x y z => max_le_iff)
  refine ⟨by decide, by decide, ?_, ?_⟩
  · intro dir target
    unfold find_txnlog_paths
    have hperm := List.perm_insertionSort (fun a b : Int × List Char => a.1 ≤ b.1)
      (logEntries dir)
    have hmem : ∀ z : Int,
        (z ∈ (List.insertionSort (fun a b : Int × List Char => a.1 ≤ b.1)
          (logEntries dir)).map Prod.fst ↔ z ∈ (logEntries dir).map Prod.fst) :=
      fun z => (hperm.map Prod.fst).mem_iff
    cases h : (((List.insertionSort (fun a b : Int × List Char => a.1 ≤ b.1)
        (logEntries dir)).map Prod.fst).filter (fun z => z ≤ target)).max? with
    | none =>
      simp only [h]
      simp only [List.max?_eq_none_iff, List.filter_eq_nil_iff] at h
      constructor
      · intro _ e he
        have he1 : e.1 ∈ (logEntries dir).map Prod.fst := List.mem_map_of_mem Prod.fst he
        have := h e.1 ((hmem e.1).mpr he1)
        simpa using this
      · intro _
        trivial
    | some m =>
      simp only [h]
      rw [hmax] at h
      obtain ⟨hm_mem, _⟩ := h
      rw [List.mem_filter] at hm_mem
      obtain ⟨hm_in, hm_le⟩ := hm_mem
      constructor
      · intro hc
        exact absurd hc (by simp)
      · intro hall
        exfalso
        rw [hmem] at hm_in
        rw [List.mem_map] at hm_in
        obtain ⟨e, he_mem, he_eq⟩ := hm_in
        have := hall e he_mem
        rw [he_eq] at this
        simp at hm_le
        omega
  · intro dir target res hres
    unfold find_txnlog_paths at hres
    have hperm := List.perm_insertionSort (fun a b : Int × List Char => a.1 ≤ b.1)
      (logEntries dir)
    have hmem : ∀ z : Int,
        (z ∈ (List.insertionSort (fun a b : Int × List Char => a.1 ≤ b.1)
          (logEntries dir)).map Prod.fst ↔ z ∈ (logEntries dir).map Prod.fst) :=
      fun z => (hperm.map Prod.fst).mem_iff
    cases h : (((List.insertionSort (fun a b : Int × List Char => a.1 ≤ b.1)
        (logEntries dir)).map Prod.fst).filter (fun z => z ≤ target)).max? with
    | none =>
      simp only [h] at hres
      exact Except.noConfusion hres
    | some m =>
      simp only [h, Except.ok.injEq] at hres
      rw [hmax] at h
      obtain ⟨hm_mem, hm_ub⟩ := h
      rw [List.mem_filter] at hm_mem
      obtain ⟨hm_in, hm_le⟩ := hm_mem
      refine ⟨m, (List.insertionSort (fun a b : Int × List Char => a.1 ≤ b.1)
        (logEntries dir)).filter (fun e => decide (m ≤ e.1)), ⟨?_, ?_, ?_⟩, ?_, ?_, ?_⟩
      · exact (hmem m).mp hm_in
      · simpa using hm_le
      · intro z hz hzle
        have hz' : z ∈ (List.insertionSort (fun a b : Int × List Char => a.1 ≤ b.1)
            (logEntries dir)).map Prod.fst := (hmem z).mpr hz
        have : z ∈ ((List.insertionSort (fun a b : Int × List Char => a.1 ≤ b.1)
            (logEntries dir)).map Prod.fst).filter (fun z => z ≤ target) := by
          rw [List.mem_filter]
          exact ⟨hz', by simpa using hzle⟩
        exact hm_ub z this
      · rw [← hres]
        exact filterMap_keep_ge m _
      · exact hperm.filter _
      · haveI : IsTotal (Int × List Char) (fun a b => a.1 ≤ b.1) :=
          ⟨fun a b => le_total a.1 b.1⟩
        haveI : IsTrans (Int × List Char) (fun a b => a.1 ≤ b.1) :=
          ⟨fun _ _ _ hab hbc => le_trans hab hbc⟩
        exact (List.sorted_insertionSort _ _).filter _

/-- Witness for C4 at the concrete directory `{log.1, log.5, log.a}` and
target 7. -/
theorem c4_find_txnlog_paths_witness :
    ∃ (m : Int) (l : List (Int × List Char)),
      (m ∈ (logEntries ["log.1".toList, "log.5".toList, "log.a".toList]).map Prod.fst ∧
        m ≤ 7 ∧
        ∀ z ∈ (logEntries ["log.1".toList, "log.5".toList, "log.a".toList]).map Prod.fst,
          z ≤ 7 → z ≤ m) ∧
      ["log.5".toList, "log.a".toList] = l.map Prod.snd ∧
      l.Perm ((logEntries ["log.1".toList, "log.5".toList, "log.a".toList]).filter
        (fun e => decide (m ≤ e.1))) ∧
      l.Pairwise (fun a b => a.1 ≤ b.1) :=
  c4_find_txnlog_paths.2.2.2 ["log.1".toList, "log.5".toList, "log.a".toList] 7
    ["log.5".toList, "log.a".toList] c4_find_txnlog_paths.1
